import Mathlib

/-!
Verification of the native-primitive layer of the augeas lens engine
(src/src/builtin.c): the typed value glue around the bidirectional engine
(lens_get / lens_put), the tree-editing glue (tree_set_glue,
tree_insert_glue, tree_rm_glue), exception construction
(make_exn_lns_error), transform construction (xform_transform) and symbol
generation (gensym).

The external collaborators declared in syntax.h (lns_get, lns_put,
tree_set, tree_insert, tree_rm, format_pos, format_info, print_tree) are
not part of builtin.c; where a property depends on them they are either
taken as parameters or modelled from the specification, as marked on each
definition.

C null pointers are modelled by Option (for strings) and by the empty
list (for tree pointers, since a non-empty tree is a non-null pointer to
the first sibling).  The reference-counted value store is modelled as a
heap indexed by natural numbers, so that pointer identity of tree values
is expressible.
-/

namespace Augeas

/-- Tree node: optional label, optional value, ordered children
(struct tree in the C source: label, value, children, next; the sibling
chain next is modelled by membership in a List). -/
inductive Node where
  | mk (label : Option String) (value : Option String) (children : List Node)

/-- Label of a tree node. -/
def Node.label : Node → Option String
  | .mk l _ _ => l

/-- Value of a tree node. -/
def Node.value : Node → Option String
  | .mk _ v _ => v

/-- Children of a tree node. -/
def Node.children : Node → List Node
  | .mk _ _ c => c

/-- A tree pointer from the C source: NULL is the empty list, otherwise
the list of root-level siblings. -/
abbrev TreeList := List Node

/-- Regular expressions are used by builtin.c only through the external
regexp engine; a regexp is modelled extensionally as its whole-string
acceptance predicate. -/
def Rx := String → Bool

/-- Primitive lens kinds built by builtin.c (lns_del, lns_store, lns_key,
lns_label, lns_seq, lns_counter), each carrying the regexp or string the
constructor takes shared ownership of. -/
inductive Lens where
  | del (rx : Rx) (dflt : String)
  | store (rx : Rx)
  | key (rx : Rx)
  | label (s : String)
  | seq (name : String)
  | counter (name : String)

/-- Modelled from the spec: the derived flag lens->key set by the external
lns_make_prim, true when applying the lens deposits a tree label
(spec 4.2 table: key and label leave a key). -/
def Lens.leavesKey : Lens → Bool
  | .key _ => true
  | .label _ => true
  | _ => false

/-- Modelled from the spec: the derived flag lens->value set by the
external lns_make_prim, true when applying the lens deposits a tree value
(spec 4.2 table: store leaves a value). -/
def Lens.leavesValue : Lens → Bool
  | .store _ => true
  | _ => false

/-- Filter built by xform_incl / xform_excl: glob pattern plus polarity. -/
structure Filter where
  pattern : String
  incl : Bool
deriving DecidableEq, Repr

/-- Exception value as built by make_exn_value and extended line by line
with exn_printf_line: a base message plus an ordered list of extra
diagnostic lines. -/
structure Exn where
  message : String
  lines : List String
deriving DecidableEq, Repr

/-- Result value of a builtin primitive (struct value in C), restricted to
the tags the verified primitives produce. -/
inductive Value where
  | str (s : String)
  | tree (t : TreeList)
  | transform (l : Lens) (f : Filter)
  | exn (e : Exn)

/-- The lns_error record filled in by the external lns_get / lns_put:
message, the formatted source location of the offending lens when there is
one (format_info applied to err->lens->info), the byte offset pos (negative
when unset, as in the C source), and the tree path (a NULL-able C string). -/
structure LnsError where
  message : String
  lensinfo : Option String
  pos : Int
  path : Option String

/-- Exception built from a lens error (make_exn_lns_error in builtin.c).
format_pos is the external text-rendering collaborator: given the text and
the offset it may return a context snippet or NULL.  The C printf renders a
NULL path argument as the string (null). -/
def make_exn_lns_error (format_pos : String → Int → Option String)
    (err : LnsError) (text : String) : Exn :=
  { message := err.message
    lines :=
      (match err.lensinfo with
       | some s => ["Lens: " ++ s]
       | none => []) ++
      (if err.pos ≥ 0 then
        ["Error encountered here (" ++ toString err.pos ++
          " characters into string)"] ++
        (match format_pos text err.pos with
         | some p => [p]
         | none => [])
      else
        ["Error encountered at path " ++ err.path.getD "(null)"]) }

/-- Diagnostic line contributed by the lens source location, when the
error carries a lens. -/
def lensLines (err : LnsError) : List String :=
  match err.lensinfo with
  | some s => ["Lens: " ++ s]
  | none => []

/-- The one-line characters-into-string message for a text offset. -/
def offsetLine (n : Int) : String :=
  "Error encountered here (" ++ toString n ++ " characters into string)"

/-- The one-line at-path message; printf renders an absent path as
(null). -/
def pathLine (p : Option String) : String :=
  "Error encountered at path " ++ p.getD "(null)"

/-- Result of the external lns_get: the (possibly NULL) tree built so far
together with the (possibly NULL) error. -/
abbrev GetRes := TreeList × Option LnsError

/-- The get builtin (lens_get in builtin.c).  print_tree is the external
tree serializer used by exn_print_tree; lnsres is the result of the
external lns_get on the lens and the text. -/
def lens_get (format_pos : String → Int → Option String)
    (print_tree : TreeList → String)
    (lnsres : GetRes) (text : String) : Value :=
  match lnsres.2 with
  | none => .tree lnsres.1
  | some err =>
    let e := make_exn_lns_error format_pos err text
    if lnsres.1.isEmpty then .exn e
    else .exn { e with
      lines := e.lines ++ ["Tree generated so far:", print_tree lnsres.1] }

/-- Result of the external lns_put: the contents of the memstream output
buffer together with the (possibly NULL) error. -/
abbrev PutRes := String × Option LnsError

/-- The put builtin (lens_put in builtin.c): on success the buffer becomes
the returned string, on failure the buffer is dropped and an exception is
built from the lens error. -/
def lens_put (format_pos : String → Int → Option String)
    (lnsres : PutRes) (text : String) : Value :=
  match lnsres.2 with
  | none => .str lnsres.1
  | some err => .exn (make_exn_lns_error format_pos err text)

/-- The gensym builtin: formats the prefix followed by the static counter
count (initialised to 0 and, in this source, never incremented); the new
counter state is returned alongside the string. -/
def gensym (count : Nat) (pre : String) : String × Nat :=
  (pre ++ toString count, count)

/-- The transform builtin (xform_transform in builtin.c): refuses a lens
whose key or value flag is set, naming key when the key flag is set and
value otherwise. -/
def xform_transform (l : Lens) (f : Filter) : Value :=
  if l.leavesValue || l.leavesKey then
    let what := if l.leavesKey then "key" else "value"
    .exn { message := "Can not build a transform from a lens that leaves a "
                        ++ what ++ " behind",
           lines := [] }
  else .transform l f

/-- Heap of tree values: the reference-counted store of struct value
objects with tag V_TREE, indexed by an abstract address.  Two aliasing
holders of one tree value hold the same address. -/
abbrev Heap := Nat → TreeList

/-- Pointwise update of the heap at one address (the in-place mutation of
value->tree). -/
def Heap.update (h : Heap) (r : Nat) (t : TreeList) : Heap :=
  fun q => if q = r then t else h q

/-- Result of a tree-editing builtin: either the (same) tree value,
identified by its heap address, or an exception value. -/
inductive GRes where
  | tree (r : Nat)
  | exn (e : Exn)

/-- The scaffold root make_tree(NULL, NULL, NULL, NULL) synthesized by
tree_set_glue for an empty tree. -/
def fakeNode : Node := .mk none none []

/-- Recognizer for the scaffold node.  The C list_remove removes the fake
node by pointer identity; in the pure model the scaffold is identified by
its structure (no label, no value, no children), which coincides with
identity in every run of the glue code. -/
def Node.isFake : Node → Bool
  | .mk none none [] => true
  | _ => false

/-- Model of list_remove(fake, head): drop the first scaffold node from the
sibling list. -/
def listRemoveFake : TreeList → TreeList
  | [] => []
  | n :: ns => if n.isFake then ns else n :: listRemoveFake ns

/-- The set builtin (tree_set_glue in builtin.c): ts is the external
tree_set from the tree module, taking the root sibling list, the path
string and the value.  If the tree is empty a scaffold root is attached
first; after a successful assignment the scaffold is unlinked and freed;
on failure the exception is returned at once, with the scaffold still
attached. -/
def tree_set_glue (ts : TreeList → String → String → Option TreeList)
    (h : Heap) (r : Nat) (path value : String) : GRes × Heap :=
  let t0 := h r
  let t1 := if t0.isEmpty then [fakeNode] else t0
  match ts t1 path value with
  | none =>
    (.exn { message := "Tree set of " ++ path ++ " to \x27" ++ value
                         ++ "\x27 failed",
            lines := [] },
     h.update r t1)
  | some t2 =>
    let t3 := if t0.isEmpty then listRemoveFake t2 else t2
    (.tree r, h.update r t3)

/-- Shared body of the insert builtins (tree_insert_glue in builtin.c):
ti is the external tree_insert taking the root sibling list, the path, the
label and the before flag (int 1 or 0 in C). -/
def tree_insert_glue (ti : TreeList → String → String → Bool → Option TreeList)
    (h : Heap) (r : Nat) (label path : String) (before : Bool) : GRes × Heap :=
  match ti (h r) path label before with
  | none =>
    (.exn { message := "Tree insert of " ++ label ++ " at " ++ path
                         ++ " failed",
            lines := [] },
     h)
  | some t2 => (.tree r, h.update r t2)

/-- The insa builtin (tree_insa_glue): insert after, before flag 0. -/
def tree_insa_glue (ti : TreeList → String → String → Bool → Option TreeList)
    (h : Heap) (r : Nat) (label path : String) : GRes × Heap :=
  tree_insert_glue ti h r label path false

/-- The insb builtin (tree_insb_glue): insert before, before flag 1. -/
def tree_insb_glue (ti : TreeList → String → String → Bool → Option TreeList)
    (h : Heap) (r : Nat) (label path : String) : GRes × Heap :=
  tree_insert_glue ti h r label path true

/-- The rm builtin (tree_rm_glue in builtin.c): tr is the external tree_rm;
a return of -1 in C is modelled as none. -/
def tree_rm_glue (tr : TreeList → String → Option TreeList)
    (h : Heap) (r : Nat) (path : String) : GRes × Heap :=
  match tr (h r) path with
  | none =>
    (.exn { message := "Tree rm of " ++ path ++ " failed", lines := [] }, h)
  | some t2 => (.tree r, h.update r t2)

/-- Chain of fresh nodes realizing a path suffix, ending in a leaf holding
the value (used by the spec model of tree_set when the path does not yet
exist). -/
def mkChain (seg : String) (rest : List String) (v : String) : Node :=
  match rest with
  | [] => .mk (some seg) (some v) []
  | s :: ss => .mk (some seg) none [mkChain s ss v]

/-- Modelled from the spec: the external tree module's path-addressed
tree_set (spec 4.4 and 6): assigns the value at the node addressed by the
path segments, creating intermediate nodes as needed; a node missing from
a sibling list is appended at the end of that list, so a scaffold head
node is left in place.  An empty segment list fails. -/
def tree_set : TreeList → List String → String → Option TreeList
  | _, [], _ => none
  | [], seg :: rest, v => some [mkChain seg rest v]
  | .mk lbl vl ch :: ns, seg :: rest, v =>
    if lbl = some seg then
      match rest with
      | [] => some (.mk lbl (some v) ch :: ns)
      | s :: ss =>
        match tree_set ch (s :: ss) v with
        | none => none
        | some c => some (.mk lbl vl c :: ns)
    else
      match tree_set ns (seg :: rest) v with
      | none => none
      | some ns2 => some (.mk lbl vl ch :: ns2)

/-- Helper for splitPath: accumulate the current segment (in reverse)
while scanning the characters. -/
def splitSegs : List Char → List Char → List String
  | [], acc => [String.mk acc.reverse]
  | c :: cs, acc =>
    if c = '/' then String.mk acc.reverse :: splitSegs cs []
    else splitSegs cs (c :: acc)

/-- Modelled from the spec: path expressions use slash-separated
segments; splitting the path string into its segments. -/
def splitPath (p : String) : List String := splitSegs p.data []

/-- Modelled from the spec: the path-string front end of tree_set; path
segments are separated by slashes. -/
def tree_set_path (t : TreeList) (path value : String) : Option TreeList :=
  tree_set t (splitPath path) value

/-- Modelled from the spec: path addressing (first node matching each
segment label in sibling order). -/
def tree_get : TreeList → List String → Option Node
  | _, [] => none
  | [], _ :: _ => none
  | .mk lbl vl ch :: ns, seg :: rest =>
    if lbl = some seg then
      match rest with
      | [] => some (.mk lbl vl ch)
      | s :: ss => tree_get ch (s :: ss)
    else tree_get ns (seg :: rest)

/-- State of the named sequence counters used by the seq and counter
lenses. -/
abbrev CtrState := String → Nat

/-- Tree fragment deposited by one primitive lens application: an optional
label and an optional value. -/
structure Frag where
  label : Option String
  value : Option String
deriving DecidableEq, Repr

/-- Modelled from the spec: the external engine's get direction on the
primitive lenses (spec 4.2 and 4.3).  The whole text is consumed: a
regexp lens requires the text to match its regexp, the pure-tree lenses
(label, seq, counter) consume no text.  seq deposits the current counter
value as a label and increments it; counter resets its counter. -/
def lns_get (l : Lens) (text : String) (ctr : CtrState) :
    Option (Frag × CtrState) :=
  match l with
  | .del rx _ => if rx text then some (⟨none, none⟩, ctr) else none
  | .store rx => if rx text then some (⟨none, some text⟩, ctr) else none
  | .key rx => if rx text then some (⟨some text, none⟩, ctr) else none
  | .label s => if text = "" then some (⟨some s, none⟩, ctr) else none
  | .seq name =>
    if text = "" then
      some (⟨some (toString (ctr name)), none⟩,
            fun q => if q = name then ctr name + 1 else ctr q)
    else none
  | .counter name =>
    if text = "" then
      some (⟨none, none⟩, fun q => if q = name then 0 else ctr q)
    else none

/-- Modelled from the spec: the external engine's put direction on the
primitive lenses (spec 4.2 and 4.3).  del emits the skeleton text from the
original when it still matches, else its default; store and key emit the
tree value resp. label, which must match the regexp; label checks the tree
label and emits nothing; seq and counter emit nothing and step their
counter as in get. -/
def lns_put (l : Lens) (f : Frag) (orig : String) (ctr : CtrState) :
    Option (String × CtrState) :=
  match l with
  | .del rx dflt => some ((if rx orig then orig else dflt), ctr)
  | .store rx =>
    match f.value with
    | some v => if rx v then some (v, ctr) else none
    | none => none
  | .key rx =>
    match f.label with
    | some k => if rx k then some (k, ctr) else none
    | none => none
  | .label s => if f.label = some s then some ("", ctr) else none
  | .seq name =>
    some ("", fun q => if q = name then ctr name + 1 else ctr q)
  | .counter name =>
    some ("", fun q => if q = name then 0 else ctr q)

/-! Theorems. -/

/-- Helper: a lens location line never coincides with an offset line. -/
theorem lens_line_ne_offsetLine (s : String) (n : Int) :
    "Lens: " ++ s ≠ offsetLine n := by
  intro h
  have hd := congrArg String.data h
  simp [offsetLine, String.data_append] at hd

/-- Helper: a path line never coincides with an offset line. -/
theorem path_line_ne_offsetLine (p : String) (n : Int) :
    "Error encountered at path " ++ p ≠ offsetLine n := by
  intro h
  have hd := congrArg String.data h
  simp [offsetLine, String.data_append] at hd

/-- Helper: line layout of make_exn_lns_error for a non-negative offset. -/
theorem make_exn_pos_lines (fp : String → Int → Option String)
    (err : LnsError) (text : String) (hpos : 0 ≤ err.pos) :
    (make_exn_lns_error fp err text).lines =
      lensLines err ++ offsetLine err.pos ::
        (match fp text err.pos with
         | some p => [p]
         | none => []) := by
  simp [make_exn_lns_error, lensLines, offsetLine, hpos]

/-- Helper: line layout of make_exn_lns_error for a negative offset. -/
theorem make_exn_neg_lines (fp : String → Int → Option String)
    (err : LnsError) (text : String) (hneg : err.pos < 0) :
    (make_exn_lns_error fp err text).lines = lensLines err ++ [pathLine err.path] := by
  have hnot : ¬ (err.pos ≥ 0) := by omega
  simp [make_exn_lns_error, lensLines, pathLine, hnot]

/-- Helper: no offset line occurs among a lens line followed by a path
line. -/
theorem offsetLine_not_mem (err : LnsError) (p : String) (n : Int) :
    offsetLine n ∉ lensLines err ++ ["Error encountered at path " ++ p] := by
  intro hn
  rcases List.mem_append.mp hn with hn | hn
  · cases hli : err.lensinfo with
    | none => simp [lensLines, hli] at hn
    | some s =>
      simp [lensLines, hli] at hn
      exact lens_line_ne_offsetLine s n hn.symm
  · simp at hn
    exact path_line_ne_offsetLine p n hn.symm

/-- C2: evidence against the claim: two sequential gensym calls with the
same prefix starting from the initial counter state both return a0; the
static counter is read but never incremented, so the N returned strings
are all equal rather than pairwise distinct. -/
theorem gensym_second_call_repeats :
    (gensym 0 "a").1 = "a0" ∧
    (gensym (gensym 0 "a").2 "a").1 = "a0" ∧
    (gensym (gensym 0 "a").2 "a").1 = (gensym 0 "a").1 := by
  refine ⟨?_, ?_, ?_⟩ <;> decide

/-- C6: transform construction fails exactly when the lens leaves a key or
a value behind; the message names key when the key flag is set and value
when only the value flag is set (so every key-producing lens is refused
with a message naming key); otherwise the transform pairing the lens with
the filter is returned. -/
theorem xform_transform_spec (l : Lens) (f : Filter) :
    ((∃ e, xform_transform l f = .exn e) ↔ (l.leavesKey || l.leavesValue) = true)
    ∧ (l.leavesKey = true →
        xform_transform l f =
          .exn ⟨"Can not build a transform from a lens that leaves a key behind",
                []⟩)
    ∧ (l.leavesKey = false → l.leavesValue = true →
        xform_transform l f =
          .exn ⟨"Can not build a transform from a lens that leaves a value behind",
                []⟩)
    ∧ (l.leavesKey = false → l.leavesValue = false →
        xform_transform l f = .transform l f) := by
  have hkey : ("Can not build a transform from a lens that leaves a "
      ++ "key" ++ " behind" : String)
      = "Can not build a transform from a lens that leaves a key behind" := by
    decide
  have hval : ("Can not build a transform from a lens that leaves a "
      ++ "value" ++ " behind" : String)
      = "Can not build a transform from a lens that leaves a value behind" := by
    decide
  cases l <;>
    simp [xform_transform, Lens.leavesKey, Lens.leavesValue, hkey, hval]

/-- C6 witness: the key lens accepting only the text x is refused with a
message naming key. -/
theorem xform_transform_spec_witness :
    xform_transform (.key (fun s => s == "x")) ⟨"*", true⟩ =
      .exn ⟨"Can not build a transform from a lens that leaves a key behind",
            []⟩ :=
  (xform_transform_spec (.key (fun s => s == "x")) ⟨"*", true⟩).2.1 rfl

/-- C7 counterexample: for a lens error carrying no lens, no offset and no
path, the claim predicts that no diagnostic line is appended, but the code
appends an at-path line rendering the absent path as (null). -/
theorem make_exn_lns_error_null_path_cex :
    (make_exn_lns_error (fun _ _ => none) ⟨"boom", none, -1, none⟩ "t").lines =
      ["Error encountered at path " ++ "(null)"]
    ∧ (make_exn_lns_error (fun _ _ => none) ⟨"boom", none, -1, none⟩ "t").lines
        ≠ [] := by
  refine ⟨rfl, ?_⟩
  simp [make_exn_lns_error]

/-- C7 (amended): diagnostic line order of make_exn_lns_error: the lens
location line first when the error carries a lens; then, when the error
carries a text offset, the characters-into-string line followed by the
context snippet exactly when rendering succeeds (a failed rendering is
tolerated silently); otherwise the at-path line, emitted unconditionally
with an absent path rendered as (null); the base message is kept. -/
theorem make_exn_lns_error_line_order (fp : String → Int → Option String)
    (err : LnsError) (text : String) :
    (0 ≤ err.pos →
      (make_exn_lns_error fp err text).lines =
        lensLines err ++ offsetLine err.pos ::
          (match fp text err.pos with
           | some p => [p]
           | none => []))
    ∧ (err.pos < 0 →
        (make_exn_lns_error fp err text).lines =
          lensLines err ++ [pathLine err.path])
    ∧ (make_exn_lns_error fp err text).message = err.message := by
  refine ⟨?_, ?_, rfl⟩
  · intro hpos
    simp [make_exn_lns_error, lensLines, offsetLine, hpos]
  · intro hneg
    have hnot : ¬ (err.pos ≥ 0) := by omega
    simp [make_exn_lns_error, lensLines, pathLine, hnot]

/-- C7 witness: a concrete offset error with a lens location and a
successful context rendering produces the three lines in order. -/
theorem make_exn_lns_error_line_order_witness :
    (make_exn_lns_error (fun _ _ => some "ctx")
        ⟨"m", some "L", 3, none⟩ "ab").lines =
      lensLines ⟨"m", some "L", 3, none⟩ ++ offsetLine 3 ::
        (match (fun (_ : String) (_ : Int) => some "ctx") "ab" (3 : Int) with
         | some p => [p]
         | none => []) :=
  (make_exn_lns_error_line_order (fun _ _ => some "ctx")
    ⟨"m", some "L", 3, none⟩ "ab").1 (by decide)

/-- C9 counterexample: a lens error carrying neither a text offset nor a
tree path still yields an exception containing a path line, so the claim
that neither line appears is false on the code. -/
theorem make_exn_lns_error_neither_cex :
    ("Error encountered at path " ++ "(null)") ∈
      (make_exn_lns_error (fun _ _ => none)
        ⟨"m2", some "F:1", -1, none⟩ "xy").lines := by
  simp [make_exn_lns_error]

/-- C9 (amended): for a lens error carrying neither a text offset nor a
tree path, the exception contains no offset line, but does contain a path
line rendering the absent path as (null). -/
theorem make_exn_lns_error_no_offset_no_path (fp : String → Int → Option String)
    (err : LnsError) (text : String)
    (hpos : err.pos < 0) (hpath : err.path = none) :
    (make_exn_lns_error fp err text).lines = lensLines err ++ [pathLine none]
    ∧ ∀ n : Int, offsetLine n ∉ (make_exn_lns_error fp err text).lines := by
  have hnot : ¬ (err.pos ≥ 0) := by omega
  have hl : (make_exn_lns_error fp err text).lines
      = lensLines err ++ [pathLine none] := by
    simp [make_exn_lns_error, lensLines, pathLine, hnot, hpath]
  refine ⟨hl, ?_⟩
  intro n hn
  rw [hl] at hn
  rcases List.mem_append.mp hn with hn | hn
  · cases hli : err.lensinfo with
    | none => simp [lensLines, hli] at hn
    | some s =>
      simp [lensLines, hli] at hn
      exact lens_line_ne_offsetLine s n hn.symm
  · simp at hn
    exact path_line_ne_offsetLine "(null)" n (by simpa [pathLine] using hn.symm)

/-- C9 witness: concrete error with negative offset and absent path. -/
theorem make_exn_lns_error_no_offset_no_path_witness :
    (make_exn_lns_error (fun _ _ => none) ⟨"m", none, -1, none⟩ "t").lines =
      lensLines ⟨"m", none, -1, none⟩ ++ [pathLine none]
    ∧ ∀ n : Int, offsetLine n ∉
        (make_exn_lns_error (fun _ _ => none) ⟨"m", none, -1, none⟩ "t").lines :=
  make_exn_lns_error_no_offset_no_path (fun _ _ => none)
    ⟨"m", none, -1, none⟩ "t" (by decide) rfl

/-- C3: when parsing fails, lens_get returns an exception and never the
tree: the exception carries the one-line offset message for the error
position reported by the engine; when a partial tree was built, it is
appended to the diagnostic lines right after the Tree-generated-so-far
line and is not the primary result; on success lens_get returns the tree
value. -/
theorem lens_get_error_spec (fp : String → Int → Option String)
    (pt : TreeList → String) (tree : TreeList) (err : LnsError)
    (text : String) (hpos : 0 ≤ err.pos) :
    (∃ e, lens_get fp pt (tree, some err) text = .exn e
      ∧ offsetLine err.pos ∈ e.lines
      ∧ (tree ≠ [] →
          e.lines = (make_exn_lns_error fp err text).lines
            ++ ["Tree generated so far:", pt tree]))
    ∧ (∀ t, lens_get fp pt (tree, some err) text ≠ .tree t)
    ∧ lens_get fp pt (tree, none) text = .tree tree := by
  have hmem : offsetLine err.pos ∈ (make_exn_lns_error fp err text).lines := by
    rw [make_exn_pos_lines fp err text hpos]
    exact List.mem_append_right _ (List.mem_cons_self _ _)
  refine ⟨?_, ?_, rfl⟩
  · by_cases ht : tree.isEmpty
    · refine ⟨make_exn_lns_error fp err text, ?_, hmem, ?_⟩
      · simp [lens_get, ht]
      · intro hne
        exact absurd (List.isEmpty_iff.mp ht) hne
    · refine ⟨{ make_exn_lns_error fp err text with
          lines := (make_exn_lns_error fp err text).lines
            ++ ["Tree generated so far:", pt tree] }, ?_, ?_, ?_⟩
      · simp [lens_get, ht]
      · exact List.mem_append_left _ hmem
      · intro _
        rfl
  · intro t hcontra
    by_cases ht : tree.isEmpty <;> simp [lens_get, ht] at hcontra

/-- C3 witness: a concrete failing parse at offset 5 with a partial tree. -/
theorem lens_get_error_spec_witness :
    (∃ e, lens_get (fun _ _ => none) (fun _ => "T")
        ([Node.mk none none []], some ⟨"m", none, 5, none⟩) "abc" = .exn e
      ∧ offsetLine (5 : Int) ∈ e.lines
      ∧ ([Node.mk none none []] ≠ ([] : TreeList) →
          e.lines = (make_exn_lns_error (fun _ _ => none)
              ⟨"m", none, 5, none⟩ "abc").lines
            ++ ["Tree generated so far:", "T"]))
    ∧ (∀ t, lens_get (fun _ _ => none) (fun _ => "T")
        ([Node.mk none none []], some ⟨"m", none, 5, none⟩) "abc" ≠ .tree t)
    ∧ lens_get (fun _ _ => none) (fun _ => "T")
        ([Node.mk none none []], none) "abc" = .tree [Node.mk none none []] :=
  lens_get_error_spec (fun _ _ => none) (fun _ => "T")
    [Node.mk none none []] ⟨"m", none, 5, none⟩ "abc" (by decide)

/-- C4: when put fails the result is an exception built from the lens
error; with the engine invariant that put failures never set the text
offset, its diagnostic lines are the lens line followed by the at-path
line, with no offset line for any position; the result does not depend on
the partially written buffer, which is dropped; on success the buffer
contents become the returned string. -/
theorem lens_put_error_spec (fp : String → Int → Option String)
    (buf : String) (err : LnsError) (text p : String)
    (hpos : err.pos < 0) (hpath : err.path = some p) :
    (∃ e, lens_put fp (buf, some err) text = .exn e
      ∧ e.lines = lensLines err ++ ["Error encountered at path " ++ p]
      ∧ ∀ n : Int, offsetLine n ∉ e.lines)
    ∧ (∀ buf2, lens_put fp (buf2, some err) text = lens_put fp (buf, some err) text)
    ∧ (∀ t, lens_put fp (buf, some err) text ≠ .str t)
    ∧ lens_put fp (buf, none) text = .str buf := by
  have hl : (make_exn_lns_error fp err text).lines
      = lensLines err ++ ["Error encountered at path " ++ p] := by
    rw [make_exn_neg_lines fp err text hpos]
    simp [pathLine, hpath]
  refine ⟨⟨make_exn_lns_error fp err text, rfl, hl, ?_⟩,
          fun buf2 => rfl, ?_, rfl⟩
  · intro n hn
    rw [hl] at hn
    exact offsetLine_not_mem err p n hn
  · intro t hcontra
    simp [lens_put] at hcontra

/-- C4 witness: a concrete put failure carrying only a tree path. -/
theorem lens_put_error_spec_witness :
    (∃ e, lens_put (fun _ _ => none) ("partial", some ⟨"m", some "L", -1, some "/a"⟩)
        "orig" = .exn e
      ∧ e.lines = lensLines ⟨"m", some "L", -1, some "/a"⟩
          ++ ["Error encountered at path " ++ "/a"]
      ∧ ∀ n : Int, offsetLine n ∉ e.lines)
    ∧ (∀ buf2, lens_put (fun _ _ => none) (buf2, some ⟨"m", some "L", -1, some "/a"⟩)
        "orig" = lens_put (fun _ _ => none)
          ("partial", some ⟨"m", some "L", -1, some "/a"⟩) "orig")
    ∧ (∀ t, lens_put (fun _ _ => none)
        ("partial", some ⟨"m", some "L", -1, some "/a"⟩) "orig" ≠ .str t)
    ∧ lens_put (fun _ _ => none) ("partial", none) "orig" = .str "partial" :=
  lens_put_error_spec (fun _ _ => none) "partial"
    ⟨"m", some "L", -1, some "/a"⟩ "orig" "/a" (by decide) rfl

/-- C1: round trip: for every primitive lens and every text it accepts,
put applied to the exact tree fragment returned by get, together with the
same original text and the same counter state, reproduces the text
exactly. -/
theorem lns_get_put_round_trip (l : Lens) (text : String) (ctr : CtrState)
    (f : Frag) (ctr2 : CtrState)
    (h : lns_get l text ctr = some (f, ctr2)) :
    ∃ ctr3, lns_put l f text ctr = some (text, ctr3) := by
  cases l with
  | del rx dflt =>
    by_cases hrx : rx text
    · exact ⟨ctr, by simp [lns_put, hrx]⟩
    · simp [lns_get, hrx] at h
  | store rx =>
    by_cases hrx : rx text
    · simp [lns_get, hrx] at h
      exact ⟨ctr, by simp [lns_put, ← h.1, hrx]⟩
    · simp [lns_get, hrx] at h
  | key rx =>
    by_cases hrx : rx text
    · simp [lns_get, hrx] at h
      exact ⟨ctr, by simp [lns_put, ← h.1, hrx]⟩
    · simp [lns_get, hrx] at h
  | label s =>
    by_cases ht : text = ""
    · subst ht
      simp [lns_get] at h
      exact ⟨ctr, by simp [lns_put, ← h.1]⟩
    · simp [lns_get, ht] at h
  | seq name =>
    by_cases ht : text = ""
    · subst ht
      exact ⟨fun q => if q = name then ctr name + 1 else ctr q, rfl⟩
    · simp [lns_get, ht] at h
  | counter name =>
    by_cases ht : text = ""
    · subst ht
      exact ⟨fun q => if q = name then 0 else ctr q, rfl⟩
    · simp [lns_get, ht] at h

/-- C1 witness: the store lens over the regexp accepting exactly x, on the
text x: get deposits the value x and put reproduces x. -/
theorem lns_get_put_round_trip_witness :
    ∃ ctr3, lns_put (.store (fun s => s == "x")) ⟨none, some "x"⟩ "x"
      (fun _ => 0) = some ("x", ctr3) :=
  lns_get_put_round_trip (.store (fun s => s == "x")) "x" (fun _ => 0)
    ⟨none, some "x"⟩ (fun _ => 0) rfl

/-- Helper: tree_set through a scaffold-only list leaves the scaffold in
place and appends the chain realizing the path. -/
theorem tree_set_fake (seg : String) (rest : List String) (v : String) :
    tree_set [fakeNode] (seg :: rest) v
      = some [fakeNode, mkChain seg rest v] := by
  simp only [fakeNode]
  unfold tree_set
  simp [tree_set]

/-- Helper: the chain realizing a path is addressed by that path and holds
the value at its leaf. -/
theorem tree_get_mkChain (seg : String) (rest : List String) (v : String) :
    ∃ lb ch, tree_get [mkChain seg rest v] (seg :: rest)
      = some (.mk lb (some v) ch) := by
  induction rest generalizing seg with
  | nil => exact ⟨some seg, [], by simp [tree_get, mkChain]⟩
  | cons s ss ih =>
    obtain ⟨lb, ch, hih⟩ := ih s
    exact ⟨lb, ch, by simp [tree_get, mkChain, hih]⟩

/-- Helper: the scaffold node is recognized as fake. -/
theorem fakeNode_isFake : fakeNode.isFake = true := rfl

/-- C5: set on an empty tree synthesizes a scaffold root, performs the
assignment against it and then discards the scaffold wrapper but not the
new node: the call succeeds with the same tree value, whose content is
exactly the chain of nodes realizing the path with the value at its
addressed leaf, and no scaffold node remains. -/
theorem tree_set_glue_empty (h : Heap) (r : Nat) (path value seg : String)
    (rest : List String)
    (hsplit : splitPath path = seg :: rest)
    (hempty : h r = []) :
    tree_set_glue tree_set_path h r path value
      = (.tree r, h.update r [mkChain seg rest value])
    ∧ (∃ lb ch, tree_get [mkChain seg rest value] (seg :: rest)
        = some (.mk lb (some value) ch))
    ∧ ∀ n ∈ [mkChain seg rest value], n.isFake = false := by
  refine ⟨?_, tree_get_mkChain seg rest value, ?_⟩
  · have h1 : (h r).isEmpty = true := by simp [hempty]
    have hts : tree_set_path [fakeNode] path value
        = some [fakeNode, mkChain seg rest value] := by
      unfold tree_set_path
      rw [hsplit, tree_set_fake]
    simp [tree_set_glue, h1, hts, listRemoveFake, fakeNode_isFake]
  · intro n hn
    simp at hn
    subst hn
    cases rest <;> simp [mkChain, Node.isFake]

/-- C5 witness: setting path x/y to value v on an empty tree. -/
theorem tree_set_glue_empty_witness :
    tree_set_glue tree_set_path (fun _ => []) 0 "x/y" "v"
      = (.tree 0, Heap.update (fun _ => []) 0 [mkChain "x" ["y"] "v"])
    ∧ (∃ lb ch, tree_get [mkChain "x" ["y"] "v"] ("x" :: ["y"])
        = some (.mk lb (some "v") ch))
    ∧ ∀ n ∈ [mkChain "x" ["y"] "v"], n.isFake = false :=
  tree_set_glue_empty (fun _ => []) 0 "x/y" "v" "x" ["y"] (by decide) rfl

/-- C8: every successful tree edit returns the identical tree value (the
same heap address it was given, not a copy) and mutates the heap only at
that address, so every other holder aliasing that address observes the
mutation. -/
theorem tree_edit_in_place
    (ts : TreeList → String → String → Option TreeList)
    (ti : TreeList → String → String → Bool → Option TreeList)
    (tr : TreeList → String → Option TreeList)
    (h : Heap) (r : Nat) (path value label : String) :
    (∀ t2, ts (if (h r).isEmpty then [fakeNode] else h r) path value = some t2 →
      tree_set_glue ts h r path value
        = (.tree r, h.update r
            (if (h r).isEmpty then listRemoveFake t2 else t2)))
    ∧ (∀ t2, ti (h r) path label false = some t2 →
        tree_insa_glue ti h r label path = (.tree r, h.update r t2))
    ∧ (∀ t2, ti (h r) path label true = some t2 →
        tree_insb_glue ti h r label path = (.tree r, h.update r t2))
    ∧ (∀ t2, tr (h r) path = some t2 →
        tree_rm_glue tr h r path = (.tree r, h.update r t2))
    ∧ (∀ t, (h.update r t) r = t)
    ∧ (∀ t q, q ≠ r → (h.update r t) q = h q) := by
  refine ⟨?_, ?_, ?_, ?_, ?_, ?_⟩
  · intro t2 ht2
    simp [tree_set_glue, ht2]
  · intro t2 ht2
    simp [tree_insa_glue, tree_insert_glue, ht2]
  · intro t2 ht2
    simp [tree_insb_glue, tree_insert_glue, ht2]
  · intro t2 ht2
    simp [tree_rm_glue, ht2]
  · intro t
    simp [Heap.update]
  · intro t q hq
    simp [Heap.update, hq]

/-- C8 witness: a concrete successful set and a concrete successful rm,
each returning the address it was given with the heap updated there. -/
theorem tree_edit_in_place_witness :
    tree_set_glue (fun _ _ _ => some [fakeNode, Node.mk (some "a") (some "v") []])
        (fun _ => []) 0 "a" "v"
      = (.tree 0, Heap.update (fun _ => []) 0 [Node.mk (some "a") (some "v") []])
    ∧ tree_rm_glue (fun _ _ => some []) (fun _ => [fakeNode]) 1 "p"
      = (.tree 1, Heap.update (fun _ => [fakeNode]) 1 []) :=
  ⟨(tree_edit_in_place
      (fun _ _ _ => some [fakeNode, Node.mk (some "a") (some "v") []])
      (fun _ _ _ _ => none) (fun _ _ => none)
      (fun _ => []) 0 "a" "v" "l").1 _ rfl,
   (tree_edit_in_place (fun _ _ _ => none) (fun _ _ _ _ => none)
      (fun _ _ => some []) (fun _ => [fakeNode]) 1 "p" "v" "l").2.2.2.1 _ rfl⟩

/-- C10: when set is called on an empty tree and the underlying path
assignment fails, an exception is returned and the scaffold root stays
attached to the tree value: the cleanup step is skipped on the error path,
so the tree is no longer empty after the failure. -/
theorem tree_set_glue_empty_fail
    (ts : TreeList → String → String → Option TreeList)
    (h : Heap) (r : Nat) (path value : String)
    (hempty : h r = []) (hfail : ts [fakeNode] path value = none) :
    tree_set_glue ts h r path value
      = (.exn ⟨"Tree set of " ++ path ++ " to \x27" ++ value ++ "\x27 failed",
               []⟩,
         h.update r [fakeNode])
    ∧ (tree_set_glue ts h r path value).2 r = [fakeNode]
    ∧ (tree_set_glue ts h r path value).2 r ≠ [] := by
  have h1 : (h r).isEmpty = true := by simp [hempty]
  have hmain : tree_set_glue ts h r path value
      = (.exn ⟨"Tree set of " ++ path ++ " to \x27" ++ value ++ "\x27 failed",
               []⟩,
         h.update r [fakeNode]) := by
    simp [tree_set_glue, h1, hfail]
  refine ⟨hmain, ?_, ?_⟩ <;> simp [hmain, Heap.update]

/-- C10 witness: a concrete failing assignment on an empty tree leaves the
scaffold attached. -/
theorem tree_set_glue_empty_fail_witness :
    tree_set_glue (fun _ _ _ => none) (fun _ => []) 0 "p" "v"
      = (.exn ⟨"Tree set of " ++ "p" ++ " to \x27" ++ "v" ++ "\x27 failed",
               []⟩,
         Heap.update (fun _ => []) 0 [fakeNode])
    ∧ (tree_set_glue (fun _ _ _ => none) (fun _ => []) 0 "p" "v").2 0 = [fakeNode]
    ∧ (tree_set_glue (fun _ _ _ => none) (fun _ => []) 0 "p" "v").2 0 ≠ [] :=
  tree_set_glue_empty_fail (fun _ _ _ => none) (fun _ => []) 0 "p" "v" rfl rfl

end Augeas
